import Mathlib

/-!
Verification of the s2protocol command-line pipeline (`s2protocol/s2_cli.py`).

The source is Python 2. Decoded replay records are untyped structured
values: dicts with string keys, lists, integers and (byte) strings. We embed
them as the inductive `PyVal` below. Python-2 `str` is a byte string; we keep
two constructors, `vStr` for textual strings (dict keys, URIs) and `vBytes`
for raw binary strings (cache handles); both have Python type name "str".

Machine-level notes about the translation:
  * `binascii.b2a_hex` produces a lowercase hex string, two characters per
    byte; we model it as `hexChars : List Nat → List Char` on byte lists.
  * Python string slicing `s[i:j]` clamps to the string's length; `pySlice`
    reproduces that.
  * `int(s, 16)` raises `ValueError` on the empty string and on a string
    containing a non-hex-digit character; `parseHex` returns `none` there.
  * `n is not 0` in CPython is equivalent to `n != 0` for byte values,
    because ints in [-256, 255] are interned.
  * Fallible code is embedded with `Option` / `Except`.
-/

/-- A decoded replay value: nested dicts (string keys), lists, ints and
Python-2 strings (textual `vStr` or raw-byte `vBytes`). -/
inductive PyVal where
  | vInt (n : Int)
  | vStr (s : String)
  | vBytes (bs : List Nat)
  | vList (l : List PyVal)
  | vDict (d : List (String × PyVal))

/-- Lowercase hex digit for a nibble, as CPython's `"%02x"`/`b2a_hex` emit:
`0`-`9` then `a`-`f`. -/
def hexDigit (n : Nat) : Char :=
  if n < 10 then Char.ofNat (48 + n) else Char.ofNat (87 + n)

/-- Embeds `binascii.b2a_hex`: two lowercase hex characters per byte, in order. -/
def hexChars : List Nat → List Char
  | [] => []
  | b :: bs => hexDigit (b / 16) :: hexDigit (b % 16) :: hexChars bs

/-- Python slice `s[i:j]` on a character list (clamping, `i ≤ j` case). -/
def pySlice (s : List Char) (i j : Nat) : List Char :=
  (s.drop i).take (j - i)

/-- Value of one hex digit character, `none` if the character is not a hex
digit (where `int(s, 16)` raises `ValueError`). -/
def hexDigitVal (c : Char) : Option Nat :=
  if 48 ≤ c.toNat ∧ c.toNat ≤ 57 then some (c.toNat - 48)
  else if 97 ≤ c.toNat ∧ c.toNat ≤ 102 then some (c.toNat - 87)
  else if 65 ≤ c.toNat ∧ c.toNat ≤ 70 then some (c.toNat - 55)
  else none

/-- Accumulating loop of `int(s, 16)`. -/
def parseHexLoop (acc : Nat) : List Char → Option Nat
  | [] => some acc
  | c :: cs =>
    match hexDigitVal c with
    | some d => parseHexLoop (acc * 16 + d) cs
    | none => none

/-- Embeds `int(s, 16)`: fails on the empty string, otherwise folds hex digits. -/
def parseHex (s : List Char) : Option Nat :=
  match s with
  | [] => none
  | _ :: _ => parseHexLoop 0 s

/-- Embeds `convert_fourcc(fourcc_hex)` from `s2_cli.py`: the loop
`for i in xrange(0, 7, 2)` runs exactly over i = 0, 2, 4, 6; each two-char
slice is parsed as a hex byte and every non-zero byte appends its character,
so the result is the in-order characters of the non-zero bytes.  A failing
`int(...)` (empty or malformed slice) aborts the call (`ValueError`). -/
def convert_fourcc (fourcc_hex : List Char) : Option (List Char) := do
  let n0 ← parseHex (pySlice fourcc_hex 0 2)
  let n1 ← parseHex (pySlice fourcc_hex 2 4)
  let n2 ← parseHex (pySlice fourcc_hex 4 6)
  let n3 ← parseHex (pySlice fourcc_hex 6 8)
  pure (([n0, n1, n2, n3].filter (· ≠ 0)).map Char.ofNat)

/-- Python-2 `str.lower()`: lowercase the ASCII letters, leave the rest. -/
def toLowerStr (s : List Char) : List Char :=
  s.map Char.toLower

/-- Embeds `cache_handle_uri(handle)` from `s2_cli.py`: hex-encode the raw handle,
decode the first 8 hex chars as the purpose fourcc and the next 8 as the
region fourcc, keep the remainder as the content hash, and join the URI. -/
def cache_handle_uri (handle : List Nat) : Option (List Char) := do
  let handle_hex := hexChars handle
  let purpose ← convert_fourcc (pySlice handle_hex 0 8)
  let region ← convert_fourcc (pySlice handle_hex 8 16)
  let content_hash := handle_hex.drop 16
  pure ("http://".toList ++ toLowerStr region ++ ".depot.battle.net:1119/".toList
    ++ toLowerStr content_hash ++ ['.'] ++ toLowerStr purpose)

/-- The in-order non-zero characters of a fourcc's four bytes. -/
def fourccChars (bytes : List Nat) : List Char :=
  (bytes.filter (· ≠ 0)).map Char.ofNat

/-- The handle bytes whose hex encoding is
`733273620000000075732d3200000000` followed by hash bytes `deadbeef`. -/
def sampleHandle : List Nat :=
  [0x73, 0x32, 0x73, 0x62, 0, 0, 0, 0,
   0x75, 0x73, 0x2d, 0x32, 0, 0, 0, 0,
   0xde, 0xad, 0xbe, 0xef]

/-- The tree returned by `TypeDumpFilter.process`: containers keep their
shape, every scalar leaf becomes a pair of Python type name and original
value. -/
inductive TypedVal where
  | tList (l : List TypedVal)
  | tDict (d : List (String × TypedVal))
  | tPair (tyName : String) (v : PyVal)

/-- Embeds `type(value).__name__` for the embedded values (in Python 2 both textual
and byte strings have type `str`). -/
def typeName : PyVal → String
  | .vInt _ => "int"
  | .vStr _ => "str"
  | .vBytes _ => "str"
  | .vList _ => "list"
  | .vDict _ => "dict"

/-- A scalar (non-container) value: anything but a list or a dict. -/
def isScalar : PyVal → Bool
  | .vList _ => false
  | .vDict _ => false
  | _ => true

mutual
/-- Embeds `recurse_into` from `TypeDumpFilter.process`: a list is rebuilt from its
recursed items, a dict is rebuilt with the same keys and recursed values,
and any other value becomes `(type(value).__name__, value)`.
`TypeDumpFilter.process event` is `recurse_into event`. -/
def recurse_into : PyVal → TypedVal
  | .vList l => .tList (recurse_into_list l)
  | .vDict d => .tDict (recurse_into_dict d)
  | .vInt n => .tPair (typeName (.vInt n)) (.vInt n)
  | .vStr s => .tPair (typeName (.vStr s)) (.vStr s)
  | .vBytes bs => .tPair (typeName (.vBytes bs)) (.vBytes bs)

def recurse_into_list : List PyVal → List TypedVal
  | [] => []
  | v :: vs => recurse_into v :: recurse_into_list vs

def recurse_into_dict : List (String × PyVal) → List (String × TypedVal)
  | [] => []
  | (k, v) :: rest => (k, recurse_into v) :: recurse_into_dict rest
end

mutual
/-- Erase the type annotations again, recovering a value tree. -/
def eraseTypes : TypedVal → PyVal
  | .tList l => .vList (eraseTypesList l)
  | .tDict d => .vDict (eraseTypesDict d)
  | .tPair _ v => v

def eraseTypesList : List TypedVal → List PyVal
  | [] => []
  | t :: ts => eraseTypes t :: eraseTypesList ts

def eraseTypesDict : List (String × TypedVal) → List (String × PyVal)
  | [] => []
  | (k, t) :: rest => (k, eraseTypes t) :: eraseTypesDict rest
end

/-- Embeds `process_event` from `main`:
`for f in filters: event = f.process(event)` — the event variable is
rebound to each stage's returned value, so each stage receives the value the
previous stage returned.  Stages are embedded by their `process` action on
the flowing event value. -/
def process_event {α : Type} (filters : List (α → α)) (event : α) : α :=
  filters.foldl (fun ev f => f ev) event

/-- The value the stage at position `i` of the chain receives: the original
event pushed through the stages before it. -/
def stageInput {α : Type} (filters : List (α → α)) (i : Nat) (event : α) : α :=
  process_event (filters.take i) event

/-- The five filter stages `main` may install. -/
inductive FilterStage where
  | jsonOutput
  | ndjsonOutput
  | prettyPrint
  | typeDump
  | statCollection
deriving DecidableEq

/-- The command-line flags that determine the filter chain. -/
structure CliArgs where
  json : Bool
  ndjson : Bool
  quiet : Bool
  types : Bool
  stats : Bool

/-- Filter-chain construction from `main`: each `filters.insert(0, f)`
prepends, so a stage inserted later runs earlier.  The render stage is
chosen by `if args.json / elif args.ndjson / elif not args.quiet`, then
`--types` and finally `--stats` prepend their stages. -/
def buildFilters (args : CliArgs) : List FilterStage :=
  let filters : List FilterStage := []
  let filters :=
    if args.json then FilterStage.jsonOutput :: filters
    else if args.ndjson then FilterStage.ndjsonOutput :: filters
    else if !args.quiet then FilterStage.prettyPrint :: filters
    else filters
  let filters := if args.types then FilterStage.typeDump :: filters else filters
  let filters := if args.stats then FilterStage.statCollection :: filters else filters
  filters

/-- Is a stage one of the three render (output sink) stages? -/
def isRenderStage : FilterStage → Bool
  | .jsonOutput => true
  | .ndjsonOutput => true
  | .prettyPrint => true
  | _ => false

/-- The render stage selected by flag precedence: `--json` wins, then
`--ndjson`, then the default pretty-render unless `--quiet`. -/
def renderChoice (args : CliArgs) : Option FilterStage :=
  if args.json then some .jsonOutput
  else if args.ndjson then some .ndjsonOutput
  else if args.quiet then none
  else some .prettyPrint

/-- Python dict lookup on an association list with distinct keys. -/
def dictLookup : List (String × PyVal) → String → Option PyVal
  | [], _ => none
  | (k, v) :: rest, key => if k = key then some v else dictLookup rest key

mutual
/-- Structural value equality, as Python `==` compares dict keys.  The
`_event` names this is applied to are plain strings. -/
def pyEq : PyVal → PyVal → Bool
  | .vInt a, .vInt b => a == b
  | .vStr a, .vStr b => a == b
  | .vBytes a, .vBytes b => a == b
  | .vList a, .vList b => pyEqList a b
  | .vDict a, .vDict b => pyEqDict a b
  | _, _ => false

def pyEqList : List PyVal → List PyVal → Bool
  | [], [] => true
  | a :: as, b :: bs => pyEq a b && pyEqList as bs
  | _, _ => false

def pyEqDict : List (String × PyVal) → List (String × PyVal) → Bool
  | [], [] => true
  | (ka, va) :: as, (kb, vb) :: bs => ka == kb && pyEq va vb && pyEqDict as bs
  | _, _ => false
end

/-- Internal state of `StatCollectionFilter`: `_event` name ↦ (count, bits). -/
abbrev StatState := List (PyVal × Nat × Int)

/-- Embeds `self._event_stats.get(key, [0, 0])`, the lookup half. -/
def statLookup : StatState → PyVal → Option (Nat × Int)
  | [], _ => none
  | (k, st) :: rest, key => if pyEq k key then some st else statLookup rest key

/-- Embeds `self._event_stats[key] = stat`: overwrite the matching entry in place
(the original key object is kept), append a new entry otherwise. -/
def statStore : StatState → PyVal → Nat × Int → StatState
  | [], key, st => [(key, st)]
  | (k, old) :: rest, key, st =>
    if pyEq k key then (k, st) :: rest else (k, old) :: statStore rest key st

/-- Embeds `StatCollectionFilter.process`: if the event carries both `_event` and
`_bits`, bump that category's running (count, bits) pair; always return the
event unchanged.  A present but non-integer `_bits` raises `TypeError` at
`stat[1] += event['_bits']`, embedded as `none`. -/
def statProcess (stats : StatState) (event : List (String × PyVal)) :
    Option (StatState × List (String × PyVal)) :=
  match dictLookup event "_event", dictLookup event "_bits" with
  | some name, some bits =>
    match bits with
    | .vInt b =>
      let stat := (statLookup stats name).getD (0, 0)
      some (statStore stats name (stat.1 + 1, stat.2 + b), event)
    | _ => none
  | _, _ => some (stats, event)

/-- Feed a stream of events through `StatCollectionFilter.process`. -/
def statRun (stats : StatState) : List (List (String × PyVal)) → Option StatState
  | [] => some stats
  | e :: es =>
    match statProcess stats e with
    | some (stats', _) => statRun stats' es
    | none => none

/-- Does the event carry both reserved fields `_event` and `_bits`? -/
def hasBothFields (e : List (String × PyVal)) : Bool :=
  (dictLookup e "_event").isSome && (dictLookup e "_bits").isSome

/-- Total of the per-category counts. -/
def sumCounts (stats : StatState) : Nat :=
  (stats.map (fun x => x.2.1)).sum

/-- Embeds `StatCollectionFilter.finish`: one report row per recorded category,
sorted ascending by accumulated bit total, printed as
(name, count, bits / 8); Python-2 `/` on ints is floor division. -/
def statFinish (stats : StatState) : List (PyVal × Nat × Int) :=
  (List.insertionSort (fun a b => a.2.2 ≤ b.2.2) stats).map
    (fun x => (x.1, x.2.1, Int.fdiv x.2.2 8))

/-- A small event stream: two events of category `A` carrying both reserved
fields (16 and 8 bits), one event carrying neither. -/
def demoEvents : List (List (String × PyVal)) :=
  [[("_event", PyVal.vStr "A"), ("_bits", PyVal.vInt 16)],
   [("m_x", PyVal.vInt 1)],
   [("_event", PyVal.vStr "A"), ("_bits", PyVal.vInt 8)]]

/-- Python `value[key]` on a decoded structure: only a dict with the key
present yields a value; a missing key (`KeyError`) or a non-dict
(`TypeError`) is the spec's StructureError, embedded as `none`. -/
def pyGet : PyVal → String → Option PyVal
  | .vDict d, k => dictLookup d k
  | _, _ => none

/-- Python `d[key] = v` on a dict: overwrite the entry in place, keeping its
position, else append. -/
def dictStore : List (String × PyVal) → String → PyVal → List (String × PyVal)
  | [], key, v => [(key, v)]
  | (k, old) :: rest, key, v =>
    if k = key then (k, v) :: rest else (k, old) :: dictStore rest key v

/-- Embeds `value[key] = v`: assignment into a dict value (only applied where the
lookup already succeeded, so the dict case is the one exercised). -/
def pySet : PyVal → String → PyVal → PyVal
  | .vDict d, k, v => .vDict (dictStore d k v)
  | other, _, _ => other

/-- The error taxonomy of handle translation: StructureError for a missing
or malformed nested path, DecodeError for an untranslatable handle. -/
inductive TranslateError where
  | structureError
  | decodeError
deriving DecidableEq

/-- Python-2 `for x in value` iteration: a list yields its elements, a dict
its keys (in some order; we use entry order), a string its characters as
one-character strings; an int is not iterable (`TypeError`). -/
def iterPy : PyVal → Option (List PyVal)
  | .vList l => some l
  | .vDict d => some (d.map (fun kv => PyVal.vStr kv.1))
  | .vStr s => some (s.toList.map (fun c => PyVal.vStr (String.mk [c])))
  | .vBytes bs => some (bs.map (fun b => PyVal.vBytes [b]))
  | .vInt _ => none

/-- Translate one iterated handle: `binascii.b2a_hex` accepts any Python-2
`str` — raw bytes or text, whose characters are bytes — and raises
`TypeError` on anything else; the handle must then be long enough for
`cache_handle_uri` to succeed. -/
def translateHandle : PyVal → Option PyVal
  | .vBytes bs => (cache_handle_uri bs).map (fun cs => PyVal.vStr (String.mk cs))
  | .vStr s => (cache_handle_uri (s.toList.map Char.toNat)).map
      (fun cs => PyVal.vStr (String.mk cs))
  | _ => none

/-- Embeds `process_init_data(initdata)`: look up
`initdata['m_syncLobbyState']['m_gameDescription']['m_cacheHandles']`,
iterate whatever is there (the `for handle in ...` loop accepts any
iterable), translate every iterated handle in order
(`translated_handles.append(...)` is `mapM`), and assign the accumulated
list back at the same path — the Python code mutates the innermost dict in
place, so the rest of the structure is untouched.  A missing key or a
non-dict on the lookup chain raises `KeyError`/`TypeError` (the spec's
StructureError), as does a non-iterable value at the path; an
untranslatable iterated handle raises (the spec's DecodeError). -/
def process_init_data (initdata : PyVal) : Except TranslateError PyVal :=
  match pyGet initdata "m_syncLobbyState" with
  | none => .error .structureError
  | some sync =>
    match pyGet sync "m_gameDescription" with
    | none => .error .structureError
    | some desc =>
      match pyGet desc "m_cacheHandles" with
      | none => .error .structureError
      | some handles_val =>
        match iterPy handles_val with
        | none => .error .structureError
        | some handles =>
          match handles.mapM translateHandle with
          | none => .error .decodeError
          | some translated_handles =>
            .ok (pySet initdata "m_syncLobbyState"
              (pySet sync "m_gameDescription"
                (pySet desc "m_cacheHandles" (.vList translated_handles))))

/-- The raw value at the nested path
`m_syncLobbyState/m_gameDescription/m_cacheHandles`; `none` exactly when a
key is missing or an intermediate value is not a dict — where the Python
subscripting raises `KeyError`/`TypeError`. -/
def initDataPath (initdata : PyVal) : Option PyVal :=
  match pyGet initdata "m_syncLobbyState" with
  | none => none
  | some sync =>
    match pyGet sync "m_gameDescription" with
    | none => none
    | some desc => pyGet desc "m_cacheHandles"

/-- The handle list at the nested path, when the path holds a list. -/
def initDataHandles (initdata : PyVal) : Option (List PyVal) :=
  match pyGet initdata "m_syncLobbyState" with
  | none => none
  | some sync =>
    match pyGet sync "m_gameDescription" with
    | none => none
    | some desc =>
      match pyGet desc "m_cacheHandles" with
      | some (.vList handles) => some handles
      | _ => none

/-- Modelled from the spec: the decoder registry (the `versions` module) is
not under `src/`.  Per the spec a decoder exposes a header-decode operation
(plus the per-category decodes the orchestrator calls). -/
structure Decoder where
  decode_replay_header : List Nat → Option PyVal

/-- Modelled from the spec: `versions.build(baseBuild)` looks up the registry
of protocol decoders keyed by build number and raises (the spec's
UnsupportedBuildError) exactly when no decoder claims the given build
number; for a registered build it returns that build's decoder. -/
def versions_build (registry : List (Nat × Decoder)) (baseBuild : Nat) :
    Except Unit Decoder :=
  match registry.find? (fun p => p.1 == baseBuild) with
  | some p => .ok p.2
  | none => .error ()

/-- A fatal abort of the run: the diagnostic printed to stderr and the
process exit status. -/
structure RunAbort where
  message : String
  exitCode : Nat

/-- The resolution step of `main`:
`try: protocol = versions.build(baseBuild)` and on any failure
`print >> sys.stderr, 'Unsupported base build: %d' % baseBuild; sys.exit(1)`. -/
def resolve_protocol (registry : List (Nat × Decoder)) (baseBuild : Nat) :
    Except RunAbort Decoder :=
  match versions_build registry baseBuild with
  | .ok protocol => .ok protocol
  | .error _ => .error ⟨"Unsupported base build: " ++ toString baseBuild, 1⟩

/-- A stand-in registered decoder. -/
def demoDecoder : Decoder :=
  ⟨fun _ => some (.vDict [("m_version", .vDict [("m_baseBuild", .vInt 80949)])])⟩

/-- A one-entry decoder registry for build 80949. -/
def demoRegistry : List (Nat × Decoder) :=
  [(80949, demoDecoder)]

/-- A small decoded init-data structure: one cache handle (`s2sb`/`us-2`/
hash `deadbeef`) plus unrelated sibling fields on every level. -/
def demoInitData : PyVal :=
  .vDict [("m_syncLobbyState", .vDict
    [("m_gameDescription", .vDict
      [("m_cacheHandles", .vList [.vBytes [0x73, 0x32, 0x73, 0x62,
        0x75, 0x73, 0x2d, 0x32, 0xde, 0xad, 0xbe, 0xef]]),
       ("m_maxUsers", .vInt 16)]),
     ("m_userInitialData", .vList [])]),
   ("m_syncLobbyDelay", .vInt 0)]

mutual
/-- Every leaf of an annotated tree is a pair wrapping a scalar together with
that scalar's Python type name. -/
def leavesAnnotated : TypedVal → Bool
  | .tList l => leavesAnnotatedList l
  | .tDict d => leavesAnnotatedDict d
  | .tPair ty v => isScalar v && (ty == typeName v)

def leavesAnnotatedList : List TypedVal → Bool
  | [] => true
  | t :: ts => leavesAnnotated t && leavesAnnotatedList ts

def leavesAnnotatedDict : List (String × TypedVal) → Bool
  | [] => true
  | (_, t) :: rest => leavesAnnotated t && leavesAnnotatedDict rest
end

lemma hexDigitVal_hexDigit {n : Nat} (h : n < 16) :
    hexDigitVal (hexDigit n) = some n := by
  interval_cases n <;> decide

lemma parseHex_byte (b : Nat) (h : b < 256) :
    parseHex [hexDigit (b / 16), hexDigit (b % 16)] = some b := by
  have h1 : b / 16 < 16 := Nat.div_lt_of_lt_mul (by omega)
  have h2 : b % 16 < 16 := Nat.mod_lt _ (by omega)
  simp [parseHex, parseHexLoop, hexDigitVal_hexDigit h1, hexDigitVal_hexDigit h2]
  omega

lemma convert_fourcc_bytes (b0 b1 b2 b3 : Nat)
    (h0 : b0 < 256) (h1 : b1 < 256) (h2 : b2 < 256) (h3 : b3 < 256) :
    convert_fourcc (hexChars [b0, b1, b2, b3]) = some (fourccChars [b0, b1, b2, b3]) := by
  simp [convert_fourcc, hexChars, pySlice, List.drop, List.take,
    parseHex_byte b0 h0, parseHex_byte b1 h1, parseHex_byte b2 h2, parseHex_byte b3 h3,
    fourccChars]

lemma cache_handle_uri_long (b0 b1 b2 b3 b4 b5 b6 b7 : Nat) (rest : List Nat)
    (h0 : b0 < 256) (h1 : b1 < 256) (h2 : b2 < 256) (h3 : b3 < 256)
    (h4 : b4 < 256) (h5 : b5 < 256) (h6 : b6 < 256) (h7 : b7 < 256) :
    cache_handle_uri (b0 :: b1 :: b2 :: b3 :: b4 :: b5 :: b6 :: b7 :: rest) =
      some ("http://".toList ++ toLowerStr (fourccChars [b4, b5, b6, b7])
        ++ ".depot.battle.net:1119/".toList ++ toLowerStr (hexChars rest)
        ++ ['.'] ++ toLowerStr (fourccChars [b0, b1, b2, b3])) := by
  have e1 : pySlice (hexChars (b0 :: b1 :: b2 :: b3 :: b4 :: b5 :: b6 :: b7 :: rest)) 0 8
      = hexChars [b0, b1, b2, b3] := rfl
  have e2 : pySlice (hexChars (b0 :: b1 :: b2 :: b3 :: b4 :: b5 :: b6 :: b7 :: rest)) 8 16
      = hexChars [b4, b5, b6, b7] := rfl
  have e3 : (hexChars (b0 :: b1 :: b2 :: b3 :: b4 :: b5 :: b6 :: b7 :: rest)).drop 16
      = hexChars rest := rfl
  rw [cache_handle_uri, e1, e2, e3,
    convert_fourcc_bytes b0 b1 b2 b3 h0 h1 h2 h3,
    convert_fourcc_bytes b4 b5 b6 b7 h4 h5 h6 h7]
  rfl

lemma hexChars_length (bs : List Nat) : (hexChars bs).length = 2 * bs.length := by
  induction bs with
  | nil => rfl
  | cons b bs ih => simp [hexChars, ih]; omega

/-- If the fourth two-character slice fails to parse, the whole fourcc
conversion fails (`ValueError` propagates), whatever the other slices do. -/
lemma convert_fourcc_none (cs : List Char) (h : parseHex (pySlice cs 6 8) = none) :
    convert_fourcc cs = none := by
  unfold convert_fourcc
  cases e0 : parseHex (pySlice cs 0 2) <;>
    cases e1 : parseHex (pySlice cs 2 4) <;>
      cases e2 : parseHex (pySlice cs 4 6) <;>
        simp [e0, e1, e2, h]

/-- A handle of fewer than 8 bytes makes the region fourcc's last slice empty,
so `int('', 16)` raises and the translation fails. -/
lemma cache_handle_uri_short (bs : List Nat) (h : bs.length < 8) :
    cache_handle_uri bs = none := by
  have hlen : (hexChars bs).length = 2 * bs.length := hexChars_length bs
  have hslice : pySlice (pySlice (hexChars bs) 8 16) 6 8 = [] := by
    have : (pySlice (pySlice (hexChars bs) 8 16) 6 8).length = 0 := by
      simp [pySlice, List.length_take, List.length_drop, hlen]
      omega
    exact List.length_eq_zero.mp this
  have hregion : convert_fourcc (pySlice (hexChars bs) 8 16) = none :=
    convert_fourcc_none _ (by rw [hslice]; rfl)
  unfold cache_handle_uri
  cases ep : convert_fourcc (pySlice (hexChars bs) 0 8) <;> simp [ep, hregion]

/-- C4: translation of a raw handle shorter than 8 bytes fails with a hard
error (no truncated Resource Locator is produced); for handles of 8 bytes or
more it succeeds without raising. -/
theorem cache_handle_uri_fails_iff_short (bs : List Nat) (hb : ∀ b ∈ bs, b < 256) :
    (bs.length < 8 → cache_handle_uri bs = none) ∧
    (8 ≤ bs.length → (cache_handle_uri bs).isSome) := by
  refine ⟨fun h => cache_handle_uri_short bs h, fun h => ?_⟩
  obtain ⟨b0, bs, rfl⟩ := List.exists_cons_of_ne_nil (l := bs) (by rintro rfl; simp at h)
  obtain ⟨b1, bs, rfl⟩ := List.exists_cons_of_ne_nil (l := bs) (by rintro rfl; simp at h)
  obtain ⟨b2, bs, rfl⟩ := List.exists_cons_of_ne_nil (l := bs) (by rintro rfl; simp at h)
  obtain ⟨b3, bs, rfl⟩ := List.exists_cons_of_ne_nil (l := bs) (by rintro rfl; simp at h)
  obtain ⟨b4, bs, rfl⟩ := List.exists_cons_of_ne_nil (l := bs) (by rintro rfl; simp at h)
  obtain ⟨b5, bs, rfl⟩ := List.exists_cons_of_ne_nil (l := bs) (by rintro rfl; simp at h)
  obtain ⟨b6, bs, rfl⟩ := List.exists_cons_of_ne_nil (l := bs) (by rintro rfl; simp at h)
  obtain ⟨b7, bs, rfl⟩ := List.exists_cons_of_ne_nil (l := bs) (by rintro rfl; simp at h)
  rw [cache_handle_uri_long b0 b1 b2 b3 b4 b5 b6 b7 bs
    (hb b0 (by simp)) (hb b1 (by simp)) (hb b2 (by simp)) (hb b3 (by simp))
    (hb b4 (by simp)) (hb b5 (by simp)) (hb b6 (by simp)) (hb b7 (by simp))]
  rfl

/-- Witness for C4: a 3-byte handle fails, a 9-byte handle succeeds. -/
theorem cache_handle_uri_fails_iff_short_witness :
    cache_handle_uri [0xde, 0xad, 0xbe] = none ∧
    (cache_handle_uri [1, 2, 3, 4, 5, 6, 7, 8, 9]).isSome :=
  ⟨(cache_handle_uri_fails_iff_short [0xde, 0xad, 0xbe] (by decide)).1 (by decide),
   (cache_handle_uri_fails_iff_short [1, 2, 3, 4, 5, 6, 7, 8, 9] (by decide)).2 (by decide)⟩

/-- C9: `convert_fourcc` on the hex encoding of four bytes yields exactly the
characters of the non-zero bytes in order (zero bytes are simply omitted);
on the all-zero code it yields the empty string. -/
theorem convert_fourcc_skips_zero_bytes (b0 b1 b2 b3 : Nat)
    (h0 : b0 < 256) (h1 : b1 < 256) (h2 : b2 < 256) (h3 : b3 < 256) :
    convert_fourcc (hexChars [b0, b1, b2, b3])
      = some (([b0, b1, b2, b3].filter (· ≠ 0)).map Char.ofNat) ∧
    convert_fourcc (hexChars [0, 0, 0, 0]) = some [] :=
  ⟨by rw [convert_fourcc_bytes b0 b1 b2 b3 h0 h1 h2 h3]; rfl, by decide⟩

/-- Witness for C9: a single non-zero byte at position 2 (`A` = 65) yields
the single character `A`, independent of the zero bytes elsewhere. -/
theorem convert_fourcc_skips_zero_bytes_witness :
    convert_fourcc (hexChars [0, 0, 65, 0]) = some ['A'] :=
  ((convert_fourcc_skips_zero_bytes 0 0 65 0
    (by decide) (by decide) (by decide) (by decide)).1).trans (by decide)

/-- Counterexample for C2: on the handle whose hex encoding is
`733273620000000075732d3200000000` + `deadbeef`, the code slices the region
fourcc from hex characters 8..16 — the four zero bytes — so the region decodes
to the empty string and the bytes `75732d32` (`us-2`) land in the content
hash; the output is not the URI the claim states. -/
theorem cache_handle_uri_sample_counterexample :
    cache_handle_uri sampleHandle
      ≠ some ("http://us-2.depot.battle.net:1119/deadbeef.s2sb".toList) ∧
    cache_handle_uri sampleHandle
      = some ("http://.depot.battle.net:1119/75732d3200000000deadbeef.s2sb".toList) := by
  constructor <;> decide

/-- C2 (amended): translation is a deterministic function of the raw bytes;
for every handle of at least 8 bytes the result is
`http://` + lowercased region fourcc + `.depot.battle.net:1119/` +
lowercased hash hex + `.` + lowercased purpose fourcc, where the purpose
fourcc comes from bytes 0..3 and the region fourcc from bytes 4..7; the
input whose hex encoding is `7332736275732d32` + `deadbeef` yields exactly
`http://us-2.depot.battle.net:1119/deadbeef.s2sb`, while the claim's input
`733273620000000075732d3200000000` + `deadbeef` yields
`http://.depot.battle.net:1119/75732d3200000000deadbeef.s2sb`. -/
theorem cache_handle_uri_deterministic_lowercase (b0 b1 b2 b3 b4 b5 b6 b7 : Nat)
    (rest : List Nat)
    (hb : ∀ b ∈ b0 :: b1 :: b2 :: b3 :: b4 :: b5 :: b6 :: b7 :: rest, b < 256) :
    cache_handle_uri (b0 :: b1 :: b2 :: b3 :: b4 :: b5 :: b6 :: b7 :: rest) =
      some ("http://".toList ++ toLowerStr (fourccChars [b4, b5, b6, b7])
        ++ ".depot.battle.net:1119/".toList ++ toLowerStr (hexChars rest)
        ++ ['.'] ++ toLowerStr (fourccChars [b0, b1, b2, b3])) ∧
    cache_handle_uri [0x73, 0x32, 0x73, 0x62, 0x75, 0x73, 0x2d, 0x32,
        0xde, 0xad, 0xbe, 0xef]
      = some ("http://us-2.depot.battle.net:1119/deadbeef.s2sb".toList) ∧
    cache_handle_uri sampleHandle
      = some ("http://.depot.battle.net:1119/75732d3200000000deadbeef.s2sb".toList) :=
  ⟨cache_handle_uri_long b0 b1 b2 b3 b4 b5 b6 b7 rest
    (hb b0 (by simp)) (hb b1 (by simp)) (hb b2 (by simp)) (hb b3 (by simp))
    (hb b4 (by simp)) (hb b5 (by simp)) (hb b6 (by simp)) (hb b7 (by simp)),
   by decide, by decide⟩

/-- Witness for C2 (amended), at the 12-byte handle `s2sb` + `us-2` +
`deadbeef`. -/
theorem cache_handle_uri_deterministic_lowercase_witness :
    cache_handle_uri [0x73, 0x32, 0x73, 0x62, 0x75, 0x73, 0x2d, 0x32,
        0xde, 0xad, 0xbe, 0xef] =
      some ("http://".toList ++ toLowerStr (fourccChars [0x75, 0x73, 0x2d, 0x32])
        ++ ".depot.battle.net:1119/".toList
        ++ toLowerStr (hexChars [0xde, 0xad, 0xbe, 0xef])
        ++ ['.'] ++ toLowerStr (fourccChars [0x73, 0x32, 0x73, 0x62])) :=
  (cache_handle_uri_deterministic_lowercase 0x73 0x32 0x73 0x62 0x75 0x73 0x2d 0x32
    [0xde, 0xad, 0xbe, 0xef] (by decide)).1

mutual
theorem eraseTypes_recurse_into : ∀ v : PyVal, eraseTypes (recurse_into v) = v
  | .vList l => by
    rw [recurse_into, eraseTypes, eraseTypes_recurse_into_list l]
  | .vDict d => by
    rw [recurse_into, eraseTypes, eraseTypes_recurse_into_dict d]
  | .vInt _ => rfl
  | .vStr _ => rfl
  | .vBytes _ => rfl

theorem eraseTypes_recurse_into_list :
    ∀ l : List PyVal, eraseTypesList (recurse_into_list l) = l
  | [] => rfl
  | v :: vs => by
    rw [recurse_into_list, eraseTypesList, eraseTypes_recurse_into v,
      eraseTypes_recurse_into_list vs]

theorem eraseTypes_recurse_into_dict :
    ∀ d : List (String × PyVal), eraseTypesDict (recurse_into_dict d) = d
  | [] => rfl
  | (k, v) :: rest => by
    rw [recurse_into_dict, eraseTypesDict, eraseTypes_recurse_into v,
      eraseTypes_recurse_into_dict rest]
end

mutual
theorem leavesAnnotated_recurse_into :
    ∀ v : PyVal, leavesAnnotated (recurse_into v) = true
  | .vList l => by
    rw [recurse_into, leavesAnnotated, leavesAnnotated_recurse_into_list l]
  | .vDict d => by
    rw [recurse_into, leavesAnnotated, leavesAnnotated_recurse_into_dict d]
  | .vInt n => by simp [recurse_into, leavesAnnotated, isScalar]
  | .vStr s => by simp [recurse_into, leavesAnnotated, isScalar]
  | .vBytes bs => by simp [recurse_into, leavesAnnotated, isScalar]

theorem leavesAnnotated_recurse_into_list :
    ∀ l : List PyVal, leavesAnnotatedList (recurse_into_list l) = true
  | [] => rfl
  | v :: vs => by
    rw [recurse_into_list, leavesAnnotatedList, leavesAnnotated_recurse_into v,
      leavesAnnotated_recurse_into_list vs]
    rfl

theorem leavesAnnotated_recurse_into_dict :
    ∀ d : List (String × PyVal), leavesAnnotatedDict (recurse_into_dict d) = true
  | [] => rfl
  | (k, v) :: rest => by
    rw [recurse_into_dict, leavesAnnotatedDict, leavesAnnotated_recurse_into v,
      leavesAnnotated_recurse_into_dict rest]
    rfl
end

/-- C3: `TypeDumpFilter.process` (that is, `recurse_into`) leaves the
container shape and all original values intact — erasing the annotations
recovers the input exactly — and every leaf of the returned tree is a pair
of the scalar's Python type name and the original scalar value. -/
theorem typeDump_process_annotates_leaves (v : PyVal) :
    eraseTypes (recurse_into v) = v ∧ leavesAnnotated (recurse_into v) = true :=
  ⟨eraseTypes_recurse_into v, leavesAnnotated_recurse_into v⟩

/-- C5: in a chain `[A, B, C]` (in execution order), the value the third
stage receives is `B.process (A.process e)` — the previous stage's returned
value, never the reverse composition — and the chain's final value is
`C.process (B.process (A.process e))`. -/
theorem filter_chain_composes_in_order {α : Type} (A B C : α → α) (e : α) :
    stageInput [A, B, C] 2 e = B (A e) ∧
    process_event [A, B, C] e = C (B (A e)) :=
  ⟨rfl, rfl⟩

/-- C6: whenever `--stats`, `--types` and some render stage are all enabled,
the constructed chain is exactly Stat-Collect, then Type-Annotate, then the
render stage — so Stat-Collect runs first on the raw decoded event and the
render stage runs last. -/
theorem stats_types_render_chain_order (j n q : Bool)
    (hr : j = true ∨ n = true ∨ q = false) :
    ∃ r, isRenderStage r = true ∧
      buildFilters ⟨j, n, q, true, true⟩ =
        [FilterStage.statCollection, FilterStage.typeDump, r] := by
  cases j <;> cases n <;> cases q <;>
    first
      | exact ⟨FilterStage.jsonOutput, rfl, rfl⟩
      | exact ⟨FilterStage.ndjsonOutput, rfl, rfl⟩
      | exact ⟨FilterStage.prettyPrint, rfl, rfl⟩
      | (rcases hr with h | h | h <;> exact absurd h (by decide))

/-- Witness for C6: with `--json --types --stats` the chain is Stat-Collect,
Type-Annotate, JSON render. -/
theorem stats_types_render_chain_order_witness :
    ∃ r, isRenderStage r = true ∧
      buildFilters ⟨true, false, false, true, true⟩ =
        [FilterStage.statCollection, FilterStage.typeDump, r] :=
  stats_types_render_chain_order true false false (Or.inl rfl)

lemma sumCounts_statStore_bump (stats : StatState) (name : PyVal) (c : Int) :
    sumCounts (statStore stats name (((statLookup stats name).getD (0, 0)).1 + 1, c))
      = sumCounts stats + 1 := by
  induction stats with
  | nil => simp [statStore, statLookup, sumCounts]
  | cons hd tl ih =>
    obtain ⟨k, cnt, bits⟩ := hd
    cases hp : pyEq k name with
    | true => simp [statStore, statLookup, hp, sumCounts]; omega
    | false =>
      simp only [statStore, statLookup, hp, Bool.false_eq_true, if_false] at ih ⊢
      simp [sumCounts] at ih ⊢
      omega

lemma statStore_key_mem {stats : StatState} {name : PyVal} {st : Nat × Int}
    {p : PyVal × Nat × Int} (hp : p ∈ statStore stats name st) :
    p.1 = name ∨ ∃ q ∈ stats, q.1 = p.1 := by
  induction stats with
  | nil =>
    simp [statStore] at hp
    subst hp
    exact Or.inl rfl
  | cons hd tl ih =>
    obtain ⟨k, cs⟩ := hd
    cases hpq : pyEq k name with
    | true =>
      simp only [statStore, hpq, if_true] at hp
      rcases List.mem_cons.mp hp with h | h
      · exact Or.inr ⟨(k, cs), List.mem_cons_self _ _, by rw [h]⟩
      · exact Or.inr ⟨p, List.mem_cons_of_mem _ h, rfl⟩
    | false =>
      simp only [statStore, hpq, Bool.false_eq_true, if_false] at hp
      rcases List.mem_cons.mp hp with h | h
      · exact Or.inr ⟨(k, cs), List.mem_cons_self _ _, by rw [h]⟩
      · rcases ih h with h' | ⟨q, hq, hq1⟩
        · exact Or.inl h'
        · exact Or.inr ⟨q, List.mem_cons_of_mem _ hq, hq1⟩

lemma statRun_spec (es : List (List (String × PyVal))) :
    ∀ stats stats', statRun stats es = some stats' →
      sumCounts stats' = sumCounts stats + (es.filter hasBothFields).length ∧
      ∀ p ∈ stats', (∃ q ∈ stats, q.1 = p.1) ∨
        ∃ e ∈ es, hasBothFields e = true ∧ dictLookup e "_event" = some p.1 := by
  induction es with
  | nil =>
    intro stats stats' h
    simp only [statRun, Option.some.injEq] at h
    subst h
    exact ⟨by simp, fun p hp => Or.inl ⟨p, hp, rfl⟩⟩
  | cons e es ih =>
    intro stats stats' h
    simp only [statRun] at h
    rcases hev : dictLookup e "_event" with _ | name
    · have hb : hasBothFields e = false := by simp [hasBothFields, hev]
      rw [statProcess, hev] at h
      obtain ⟨hsum, hkeys⟩ := ih stats stats' h
      refine ⟨by simpa [hb] using hsum, fun p hp => ?_⟩
      rcases hkeys p hp with h' | ⟨e', he', hbe', hke'⟩
      · exact Or.inl h'
      · exact Or.inr ⟨e', List.mem_cons_of_mem _ he', hbe', hke'⟩
    · rcases hbits : dictLookup e "_bits" with _ | bits
      · have hb : hasBothFields e = false := by simp [hasBothFields, hbits]
        rw [statProcess, hev, hbits] at h
        obtain ⟨hsum, hkeys⟩ := ih stats stats' h
        refine ⟨by simpa [hb] using hsum, fun p hp => ?_⟩
        rcases hkeys p hp with h' | ⟨e', he', hbe', hke'⟩
        · exact Or.inl h'
        · exact Or.inr ⟨e', List.mem_cons_of_mem _ he', hbe', hke'⟩
      · cases bits with
        | vInt b =>
          have hb : hasBothFields e = true := by simp [hasBothFields, hev, hbits]
          rw [statProcess, hev, hbits] at h
          simp only at h
          obtain ⟨hsum, hkeys⟩ := ih _ stats' h
          rw [sumCounts_statStore_bump stats name] at hsum
          refine ⟨by simp [hb, hsum]; omega, fun p hp => ?_⟩
          rcases hkeys p hp with ⟨q, hq, hq1⟩ | ⟨e', he', hbe', hke'⟩
          · rcases statStore_key_mem hq with h' | ⟨q', hq', hq'1⟩
            · exact Or.inr ⟨e, List.mem_cons_self _ _, hb, by rw [← hq1, h']; exact hev⟩
            · exact Or.inl ⟨q', hq', by rw [hq'1, hq1]⟩
          · exact Or.inr ⟨e', List.mem_cons_of_mem _ he', hbe', hke'⟩
        | vStr s => rw [statProcess, hev, hbits] at h; cases h
        | vBytes bs => rw [statProcess, hev, hbits] at h; cases h
        | vList l => rw [statProcess, hev, hbits] at h; cases h
        | vDict d => rw [statProcess, hev, hbits] at h; cases h

lemma statFinish_counts_sum (stats : StatState) :
    ((statFinish stats).map (fun r => r.2.1)).sum = sumCounts stats := by
  unfold statFinish sumCounts
  rw [List.map_map]
  exact List.Perm.sum_eq
    ((List.perm_insertionSort (fun a b : PyVal × Nat × Int => a.2.2 ≤ b.2.2) stats).map _)

/-- C7: running `StatCollectionFilter` over a stream, an event is counted
iff it carries both `_event` and `_bits`: the total of the per-category
counts — also as summed over the `finish` report rows — equals the number
of events carrying both fields; every category in the state (hence every
report row, which come only from the state) stems from such an event, so
categories lacking either field never appear; and `process` always hands
the event on unchanged. -/
theorem statCollection_counts_iff_both_fields
    (es : List (List (String × PyVal))) (stats' : StatState)
    (h : statRun [] es = some stats') :
    sumCounts stats' = (es.filter hasBothFields).length ∧
    ((statFinish stats').map (fun r => r.2.1)).sum = (es.filter hasBothFields).length ∧
    (∀ p ∈ stats', ∃ e ∈ es, hasBothFields e = true ∧
      dictLookup e "_event" = some p.1) ∧
    (∀ st e out, statProcess st e = some out → out.2 = e) := by
  obtain ⟨hsum, hkeys⟩ := statRun_spec es [] stats' h
  have hsum' : sumCounts stats' = (es.filter hasBothFields).length := by
    simpa [sumCounts] using hsum
  refine ⟨hsum', by rw [statFinish_counts_sum, hsum'], fun p hp => ?_, ?_⟩
  · rcases hkeys p hp with ⟨q, hq, _⟩ | h'
    · simp at hq
    · exact h'
  · intro st e out hout
    rw [statProcess] at hout
    rcases hev : dictLookup e "_event" with _ | name <;> rw [hev] at hout
    · exact (Option.some.injEq _ _ ▸ hout).symm ▸ rfl
    · rcases hbits : dictLookup e "_bits" with _ | bits <;> rw [hbits] at hout
      · cases hout; rfl
      · cases bits <;> simp only at hout <;> first | (cases hout; rfl) | cases hout

/-- Witness for C7: three events, two carrying both reserved fields under
category `A`, one carrying neither; the run records category `A` with
count 2 and 24 accumulated bits. -/
theorem statCollection_counts_iff_both_fields_witness :
    sumCounts [(PyVal.vStr "A", 2, 24)] =
      ((demoEvents.filter hasBothFields).length) :=
  (statCollection_counts_iff_both_fields demoEvents [(PyVal.vStr "A", 2, 24)]
    (by rfl)).1

lemma dictLookup_dictStore_self (d : List (String × PyVal)) (k : String) (v : PyVal) :
    dictLookup (dictStore d k v) k = some v := by
  induction d with
  | nil => simp [dictStore, dictLookup]
  | cons hd tl ih =>
    obtain ⟨k', v'⟩ := hd
    by_cases h : k' = k
    · simp [dictStore, dictLookup, h]
    · simp [dictStore, dictLookup, h, ih]

lemma dictLookup_dictStore_other (d : List (String × PyVal)) (k key : String)
    (v : PyVal) (h : key ≠ k) :
    dictLookup (dictStore d k v) key = dictLookup d key := by
  induction d with
  | nil =>
    simp only [dictStore, dictLookup]
    rw [if_neg (Ne.symm h)]
  | cons hd tl ih =>
    obtain ⟨k', v'⟩ := hd
    by_cases h1 : k' = k
    · subst h1
      simp only [dictStore, if_pos rfl, dictLookup]
      rw [if_neg (Ne.symm h), if_neg (Ne.symm h)]
    · simp only [dictStore, if_neg h1, dictLookup, ih]

/-- C8: `process_init_data` fails with a structure error whenever the nested
path `m_syncLobbyState/m_gameDescription/m_cacheHandles` is absent — a
missing key or a non-dict on the lookup chain, where the Python
subscripting raises; when the path holds a list whose handles all
translate, it succeeds and returns the structure with exactly that list
replaced — in order — by the translated Resource Locator strings, every
other field at every level unchanged. -/
theorem process_init_data_replaces_handles (initdata : PyVal) :
    (initDataPath initdata = none →
      process_init_data initdata = .error TranslateError.structureError) ∧
    (∀ sync desc handles translated,
      pyGet initdata "m_syncLobbyState" = some sync →
      pyGet sync "m_gameDescription" = some desc →
      pyGet desc "m_cacheHandles" = some (.vList handles) →
      handles.mapM translateHandle = some translated →
      ∃ d', process_init_data initdata = .ok d' ∧
        initDataHandles d' = some translated ∧
        (∀ k, k ≠ "m_syncLobbyState" → pyGet d' k = pyGet initdata k) ∧
        (∀ k, k ≠ "m_gameDescription" →
          (pyGet d' "m_syncLobbyState").bind (fun s => pyGet s k) = pyGet sync k) ∧
        (∀ k, k ≠ "m_cacheHandles" →
          ((pyGet d' "m_syncLobbyState").bind
            (fun s => pyGet s "m_gameDescription")).bind (fun s => pyGet s k)
            = pyGet desc k)) := by
  constructor
  · intro h
    simp only [initDataPath] at h
    simp only [process_init_data]
    rcases h1 : pyGet initdata "m_syncLobbyState" with _ | sync <;>
      simp only [h1] at h ⊢
    rcases h2 : pyGet sync "m_gameDescription" with _ | desc <;>
      simp only [h2] at h ⊢
    rcases h3 : pyGet desc "m_cacheHandles" with _ | v <;>
      simp only [h3] at h ⊢
    exact Option.noConfusion h
  · intro sync desc handles translated h1 h2 h3 h4
    have hrun : process_init_data initdata =
        .ok (pySet initdata "m_syncLobbyState"
          (pySet sync "m_gameDescription"
            (pySet desc "m_cacheHandles" (.vList translated)))) := by
      simp only [process_init_data, h1, h2, h3, iterPy, h4]
    cases initdata with
    | vDict dtop =>
      cases sync with
      | vDict dsync =>
        cases desc with
        | vDict ddesc =>
          simp only [pyGet] at h1 h2 h3
          refine ⟨_, hrun, ?_, ?_, ?_, ?_⟩
          · simp only [initDataHandles, pySet, pyGet,
              dictLookup_dictStore_self]
          · intro k hk
            simp only [pySet, pyGet,
              dictLookup_dictStore_other dtop "m_syncLobbyState" k _ hk]
          · intro k hk
            simp [pySet, pyGet, dictLookup_dictStore_self,
              dictLookup_dictStore_other dsync "m_gameDescription" k _ hk]
          · intro k hk
            simp [pySet, pyGet, dictLookup_dictStore_self,
              dictLookup_dictStore_other ddesc "m_cacheHandles" k _ hk]
        | vInt n => simp [pyGet] at h3
        | vStr s => simp [pyGet] at h3
        | vBytes bs => simp [pyGet] at h3
        | vList l => simp [pyGet] at h3
      | vInt n => simp [pyGet] at h2
      | vStr s => simp [pyGet] at h2
      | vBytes bs => simp [pyGet] at h2
      | vList l => simp [pyGet] at h2
    | vInt n => simp [pyGet] at h1
    | vStr s => simp [pyGet] at h1
    | vBytes bs => simp [pyGet] at h1
    | vList l => simp [pyGet] at h1

/-- Witness for C8: on the sample init data the single handle is replaced by
its Resource Locator string. -/
theorem process_init_data_replaces_handles_witness :
    ∃ d', process_init_data demoInitData = Except.ok d' ∧
      initDataHandles d' =
        some [PyVal.vStr "http://us-2.depot.battle.net:1119/deadbeef.s2sb"] := by
  obtain ⟨d', hok, hhandles, -, -, -⟩ :=
    (process_init_data_replaces_handles demoInitData).2
      (.vDict [("m_gameDescription", .vDict
        [("m_cacheHandles", .vList [.vBytes [0x73, 0x32, 0x73, 0x62,
          0x75, 0x73, 0x2d, 0x32, 0xde, 0xad, 0xbe, 0xef]]),
         ("m_maxUsers", .vInt 16)]),
       ("m_userInitialData", .vList [])])
      (.vDict [("m_cacheHandles", .vList [.vBytes [0x73, 0x32, 0x73, 0x62,
        0x75, 0x73, 0x2d, 0x32, 0xde, 0xad, 0xbe, 0xef]]),
       ("m_maxUsers", .vInt 16)])
      [.vBytes [0x73, 0x32, 0x73, 0x62, 0x75, 0x73, 0x2d, 0x32,
        0xde, 0xad, 0xbe, 0xef]]
      [.vStr "http://us-2.depot.battle.net:1119/deadbeef.s2sb"]
      rfl rfl rfl rfl
  exact ⟨d', hok, hhandles⟩

/-- C1: resolution succeeds exactly when some registered decoder claims the
header's build number — and then it returns that build's registered
decoder — and on failure the run aborts with exit status 1 and the
diagnostic `Unsupported base build: <build>`. -/
theorem protocol_resolution_unsupported_build
    (registry : List (Nat × Decoder)) (baseBuild : Nat) :
    ((∃ d, resolve_protocol registry baseBuild = .ok d) ↔
      ∃ p ∈ registry, p.1 = baseBuild) ∧
    (∀ d, resolve_protocol registry baseBuild = .ok d →
      ∃ p ∈ registry, p.1 = baseBuild ∧ p.2 = d) ∧
    (∀ e, resolve_protocol registry baseBuild = .error e →
      e.exitCode = 1 ∧ e.message = "Unsupported base build: " ++ toString baseBuild) := by
  rcases hf : registry.find? (fun p => p.1 == baseBuild) with _ | p
  · have hnone : ∀ p ∈ registry, p.1 ≠ baseBuild := by
      intro p hp
      have := List.find?_eq_none.mp hf p hp
      simpa using this
    refine ⟨⟨?_, ?_⟩, ?_, ?_⟩
    · rintro ⟨d, hd⟩
      rw [resolve_protocol, versions_build, hf] at hd
      cases hd
    · rintro ⟨p, hp, hp1⟩
      exact absurd hp1 (hnone p hp)
    · intro d hd
      rw [resolve_protocol, versions_build, hf] at hd
      cases hd
    · intro e he
      rw [resolve_protocol, versions_build, hf] at he
      cases he
      exact ⟨rfl, rfl⟩
  · have hmem : p ∈ registry := List.mem_of_find?_eq_some hf
    have hkey : p.1 = baseBuild := by
      have := List.find?_some hf
      simpa using this
    refine ⟨⟨fun _ => ⟨p, hmem, hkey⟩, fun _ => ⟨p.2, ?_⟩⟩, ?_, ?_⟩
    · rw [resolve_protocol, versions_build, hf]
    · intro d hd
      rw [resolve_protocol, versions_build, hf] at hd
      cases hd
      exact ⟨p, hmem, hkey, rfl⟩
    · intro e he
      rw [resolve_protocol, versions_build, hf] at he
      cases he

/-- Witness for C1: build 80949 is registered and resolves to its decoder;
build 12345 is not registered and aborts with status 1 naming the build. -/
theorem protocol_resolution_unsupported_build_witness :
    (∃ d, resolve_protocol demoRegistry 80949 = Except.ok d) ∧
    (∀ e, resolve_protocol demoRegistry 12345 = Except.error e →
      e.exitCode = 1 ∧ e.message = "Unsupported base build: 12345") :=
  ⟨(protocol_resolution_unsupported_build demoRegistry 80949).1.mpr
      ⟨(80949, demoDecoder), by simp [demoRegistry], rfl⟩,
   fun e he =>
    (protocol_resolution_unsupported_build demoRegistry 12345).2.2 e he⟩

/-- C10: render-stage selection follows the fixed precedence `--json`, then
`--ndjson`, then the default pretty-render unless `--quiet`; `--quiet`
suppresses only the default pretty-render.  The render stages of the
constructed chain are exactly the selected one (or none). -/
theorem render_stage_precedence (j n q t s : Bool) :
    (buildFilters ⟨j, n, q, t, s⟩).filter isRenderStage =
      (renderChoice ⟨j, n, q, t, s⟩).toList := by
  cases j <;> cases n <;> cases q <;> cases t <;> cases s <;> rfl
